import Mathlib

/-!
Verification of the message-extraction, merge and filter engine of
`zos_operator_action_query.py`: the two line parsers (Python `re.finditer`
with `re.MULTILINE` over two fixed patterns), the inner join on the
sequence number, the field filter and the shape validators.  Python dicts
are embedded as ordered association lists, `None` as `Option`, and a raised
exception as the `none`/`error` branch of the returning type.
-/

namespace ZosOperator

/-- Whitespace for Python's regex `\s` and for `str.strip()`, modelled over
the code points below 0x100 that Python treats as whitespace in text
strings: U+0009..U+000D, U+001C..U+001F, U+0020, U+0085 and U+00A0 (the
module's inputs are converted console output, all ASCII). -/
def pySpace (c : Char) : Bool :=
  (9 ≤ c.val && c.val ≤ 13) || (28 ≤ c.val && c.val ≤ 32) ||
  c.val == 133 || c.val == 160

/-- The regex class `[A-Z0-9]`. -/
def isUpAlnum (c : Char) : Bool := c.isUpper || c.isDigit

/-- Python dict with string keys and values: the ordered list of its
entries. -/
abbrev Dict := List (String × String)

/-- `d.get(k)`: the value, or `none` where Python returns `None`. -/
def dget (d : Dict) (k : String) : Option String :=
  (d.find? (fun p => p.1 == k)).map (fun p => p.2)

/-- `d[k] = v`: overwrite the existing entry in place, else append. -/
def dset (d : Dict) (k v : String) : Dict :=
  if d.any (fun p => p.1 == k) then
    d.map (fun p => if p.1 == k then (k, v) else p)
  else d ++ [(k, v)]

/-- `dict_z = dict_a.copy()` then `dict_z.update(dict_b)`. -/
def dupdate (a b : Dict) : Dict := b.foldl (fun d p => dset d p.1 p.2) a

/-- Python's `str.strip()` on a character list. -/
def pyStrip (cs : List Char) : List Char :=
  ((cs.dropWhile pySpace).reverse.dropWhile pySpace).reverse

/-- The capture groups of one match of Parser A's pattern
`^\s*([0-9]{2,})\s([A-Z]{1})\s([A-Z0-9]{1,8})\s+((?:[A-Z0-9]{1,8})?)\s*[&*]?[0-9]+(.*)`. -/
structure GroupsA where
  num : List Char
  ty : Char
  sys : List Char
  job : List Char
  msg : List Char
deriving DecidableEq

/-- The capture groups of one match of Parser B's pattern
`^\s*([0-9]{2,})\s[A-Z]{1}\s+([A-Z0-9]{1,8})?\s*[&*]?[0-9]+\s([A-Z0-9]+)`;
`job = none` models the optional group not participating in the match. -/
structure GroupsB where
  num : List Char
  job : Option (List Char)
  mid : List Char
deriving DecidableEq

/-- The optional `[&*]?`: greedily consume one leading `&` or `*` when
present (not taking it can never save a failing continuation, since the
continuation starts with `[0-9]`). -/
def dropAmpStar (cs : List Char) : List Char :=
  match cs with
  | c :: r => if c == '&' || c == '*' then r else cs
  | [] => cs

/-- The tail `\s*[&*]?[0-9]+(.*)` of Parser A's pattern, matched at the
start of `cs`: group 5 (the free text; `.` stops before a newline) and the
unconsumed rest.  Every quantifier takes its maximal munch: each character
class here is disjoint from what can follow it, so Python's backtracking
never gives characters back successfully. -/
def contA (cs : List Char) : Option (List Char × List Char) :=
  let cs2 := dropAmpStar (cs.dropWhile pySpace)
  if (cs2.takeWhile Char.isDigit).isEmpty then none
  else
    let cs3 := cs2.dropWhile Char.isDigit
    some (cs3.takeWhile (fun c => c != '\n'), cs3.dropWhile (fun c => c != '\n'))

/-- The optional group 4 `((?:[A-Z0-9]{1,8})?)` followed by `contA`'s tail:
greedy, so the capture lengths `k, k-1, …, 1` are tried first and the empty
capture last — Python's backtracking order.  Called with
`k ≤ min 8 (length of the alphanumeric run at cs)`, so `cs.take k` is the
captured token. -/
def descentA : Nat → List Char → Option (List Char × List Char × List Char)
  | 0, cs => (contA cs).map (fun m => ([], m.1, m.2))
  | k + 1, cs =>
    match contA (cs.drop (k + 1)) with
    | some m => some (cs.take (k + 1), m.1, m.2)
    | none => descentA k cs

/-- Parser A's pattern matched at the start of `cs` (the `^` anchor is the
scanner's test).  Greedy classes disjoint from their successors are taken
by maximal munch; `([A-Z0-9]{1,8})` followed by `\s+` fails outright when
the alphanumeric run exceeds 8, since every shorter split leaves an
alphanumeric character where `\s` is required. -/
def tryA (cs : List Char) : Option (GroupsA × List Char) :=
  let cs1 := cs.dropWhile pySpace
  let num := cs1.takeWhile Char.isDigit
  if num.length < 2 then none
  else
    match cs1.dropWhile Char.isDigit with
    | s1 :: cs3 =>
      if !pySpace s1 then none
      else
        match cs3 with
        | t :: cs4 =>
          if !t.isUpper then none
          else
            match cs4 with
            | s2 :: cs5 =>
              if !pySpace s2 then none
              else
                let sys := cs5.takeWhile isUpAlnum
                if sys.length < 1 then none
                else if 8 < sys.length then none
                else
                  let cs6 := cs5.dropWhile isUpAlnum
                  if (cs6.takeWhile pySpace).isEmpty then none
                  else
                    let cs7 := cs6.dropWhile pySpace
                    match descentA (min 8 (cs7.takeWhile isUpAlnum).length) cs7 with
                    | some (job, msg, rest) =>
                      some ({ num := num, ty := t, sys := sys, job := job, msg := msg }, rest)
                    | none => none
            | [] => none
        | [] => none
    | [] => none

/-- The tail `\s*[&*]?[0-9]+\s([A-Z0-9]+)` of Parser B's pattern matched at
the start of `cs`: group 3 (the message id) and the unconsumed rest. -/
def contB (cs : List Char) : Option (List Char × List Char) :=
  let cs2 := dropAmpStar (cs.dropWhile pySpace)
  if (cs2.takeWhile Char.isDigit).isEmpty then none
  else
    match cs2.dropWhile Char.isDigit with
    | c :: cs3 =>
      if !pySpace c then none
      else
        let mid := cs3.takeWhile isUpAlnum
        if mid.isEmpty then none else some (mid, cs3.dropWhile isUpAlnum)
    | [] => none

/-- The optional group 2 `([A-Z0-9]{1,8})?` followed by `contB`'s tail,
greedy as in `descentA`; when the group is skipped the capture is `none`
(Python: `match.group(2) is None`). -/
def descentB : Nat → List Char → Option (Option (List Char) × List Char × List Char)
  | 0, cs => (contB cs).map (fun m => (none, m.1, m.2))
  | k + 1, cs =>
    match contB (cs.drop (k + 1)) with
    | some m => some (some (cs.take (k + 1)), m.1, m.2)
    | none => descentB k cs

/-- Parser B's pattern matched at the start of `cs`. -/
def tryB (cs : List Char) : Option (GroupsB × List Char) :=
  let cs1 := cs.dropWhile pySpace
  let num := cs1.takeWhile Char.isDigit
  if num.length < 2 then none
  else
    match cs1.dropWhile Char.isDigit with
    | s1 :: cs3 =>
      if !pySpace s1 then none
      else
        match cs3 with
        | t :: cs4 =>
          if !t.isUpper then none
          else
            if (cs4.takeWhile pySpace).isEmpty then none
            else
              let cs5 := cs4.dropWhile pySpace
              match descentB (min 8 (cs5.takeWhile isUpAlnum).length) cs5 with
              | some (job, mid, rest) => some ({ num := num, job := job, mid := mid }, rest)
              | none => none
        | [] => none
    | [] => none

/-- One scan of `re.finditer` on the suffix `cs`: `tryFn` matches the
pattern at the start of a suffix, `bol` says whether that suffix begins at
offset 0 or right after a newline (where MULTILINE lets the pattern's
leading `^` match).  Matches are non-overlapping and leftmost: the scan
attempts every position left to right and continues right after the end of
each match (one character on after an empty match — Python's rule; the two
patterns above always consume at least two characters, so that branch is
never taken).  `fuel` only bounds the recursion; `cs.length + 1` always
suffices since every step consumes at least one character. -/
def scanIter (tryFn : List Char → Option (α × List Char)) :
    Nat → List Char → Bool → List α
  | 0, _, _ => []
  | _ + 1, [], _ => []
  | fuel + 1, c :: rest, bol =>
    if bol then
      match tryFn (c :: rest) with
      | some (g, rest2) =>
        if rest2.length < rest.length + 1 then
          g :: scanIter tryFn fuel rest2
            ((((c :: rest).take (rest.length + 1 - rest2.length)).getLast?) == some '\n')
        else
          g :: scanIter tryFn fuel rest (c == '\n')
      | none => scanIter tryFn fuel rest (c == '\n')
    else scanIter tryFn fuel rest (c == '\n')

/-- All matches of Parser A's pattern in `result`, in order. -/
def finditerA (result : String) : List GroupsA :=
  scanIter tryA (result.data.length + 1) result.data true

/-- All matches of Parser B's pattern in `result`, in order. -/
def finditerB (result : String) : List GroupsB :=
  scanIter tryB (result.data.length + 1) result.data true

/-- The dict `parse_result_a` builds for one match (source lines 350-359):
keys `number`, `type`, `system` always; `job_id` only when group 4 captured
a non-empty token; `message_text` (stripped) only when group 5 is
non-empty. -/
def buildA (g : GroupsA) : Dict :=
  [("number", String.mk g.num), ("type", String.mk [g.ty]), ("system", String.mk g.sys)]
  ++ (if g.job.isEmpty then [] else [("job_id", String.mk g.job)])
  ++ (if g.msg.isEmpty then [] else [("message_text", String.mk (pyStrip g.msg))])

/-- The dict `parse_result_b` builds for one match (source lines 379-389):
the `job_name` key is dropped when the group captured nothing (`None`). -/
def buildB (g : GroupsB) : Dict :=
  [("number", String.mk g.num)]
  ++ (match g.job with
      | some j => [("job_name", String.mk j)]
      | none => [])
  ++ [("message_id", String.mk g.mid)]

/-- `parse_result_a`: the records extracted from the `d r,a,s` output. -/
def parse_result_a (result : String) : List Dict :=
  (finditerA result).map buildA

/-- `parse_result_b`: the records extracted from the `d r,a,jn` output. -/
def parse_result_b (result : String) : List Dict :=
  (finditerB result).map buildB

/-- `merge_list`: the nested scan emitting one updated copy of `dict_a` per
`dict_b` with the same `number`. -/
def merge_list (list_a list_b : List Dict) : List Dict :=
  list_a.foldl (fun acc dict_a =>
    list_b.foldl (fun acc2 dict_b =>
      if dget dict_a "number" == dget dict_b "number" then
        acc2 ++ [dupdate dict_a dict_b]
      else acc2) acc) []

/-- `create_merge_list`: parse both outputs, then join. -/
def create_merge_list (message_a message_b : String) : List Dict :=
  merge_list (parse_result_a message_a) (parse_result_b message_b)

/-- Python's `value.rstrip("*")`. -/
def rstripStar (v : String) : String :=
  String.mk ((v.data.reverse.dropWhile (fun c => c == '*')).reverse)

/-- One record against one predicate, as `handle_conditions` evaluates it:
`value.endswith("*")` is "the last character is `*`", and `s.startswith(p)`
is `p` being a prefix of `s`.  `none` models the AttributeError Python
raises when the wildcard branch calls `.startswith` on the `None` that
`dict.get` returned for an absent field; in the exact branch
`None == value` is just `False`. -/
def matchesCond (d : Dict) (condition_type value : String) : Option Bool :=
  if value.data.getLast? == some '*' then
    (dget d condition_type).map (fun s => (rstripStar value).data.isPrefixOf s.data)
  else
    some (dget d condition_type == some value)

/-- `handle_conditions`: keep the records whose field matches; `none` when
any record's evaluation raises (absent field under a wildcard value). -/
def handle_conditions : List Dict → String → String → Option (List Dict)
  | [], _, _ => some []
  | d :: rest, condition_type, value =>
    match matchesCond d condition_type value, handle_conditions rest condition_type value with
    | some e, some newlist => some (if e then d :: newlist else newlist)
    | _, _ => none

/-- The module's three optional, already-parsed filter options. -/
structure Params where
  system : Option String
  message_id : Option String
  job_name : Option String

/-- One `if option: newlist = handle_conditions(newlist, ct, option)` step
of `filter_requests` (Python truthiness: `None` and `""` skip the step). -/
def applyCond (l : List Dict) (condition_type : String) (v : Option String) :
    Option (List Dict) :=
  match v with
  | some s => if s == "" then some l else handle_conditions l condition_type s
  | none => some l

/-- `filter_requests`: the three predicates in the fixed source order
system, job_name, message_id, each narrowing the surviving set. -/
def filter_requests (merged_list : List Dict) (params : Params) : Option (List Dict) := do
  let l1 ← applyCond merged_list "system" params.system
  let l2 ← applyCond l1 "job_name" params.job_name
  applyCond l2 "message_id" params.message_id

/-- `find_required_request` just delegates to the filter. -/
def find_required_request (merged_list : List Dict) (params : Params) :
    Option (List Dict) :=
  filter_requests merged_list params

/-- The (field, value) pairs one option contributes to the filter sequence:
none when the option is unsupplied or falsy. -/
def optCond (condition_type : String) (v : Option String) : List (String × String) :=
  match v with
  | some s => if s == "" then [] else [(condition_type, s)]
  | none => []

/-- The predicates `filter_requests` would apply, as (field, value) pairs in
its fixed order, dropping unsupplied (falsy) options. -/
def condList (params : Params) : List (String × String) :=
  optCond "system" params.system ++ optCond "job_name" params.job_name
    ++ optCond "message_id" params.message_id

/-- Apply a list of (field, value) predicates in the given order. -/
def applyConds : List (String × String) → List Dict → Option (List Dict)
  | [], l => some l
  | c :: cs, l =>
    match handle_conditions l c.1 c.2 with
    | some l2 => applyConds cs l2
    | none => none

/-- A record satisfies every one of the given predicates. -/
def keepAll (conds : List (String × String)) (d : Dict) : Bool :=
  conds.all (fun c => matchesCond d c.1 c.2 == some true)

/-- The rests of `cs` left after greedily matching `cls{lo,hi}` (`hi = none`
for an unbounded repeat), in Python's backtracking order: maximal munch
first, each step giving one character back, never below `lo`. -/
def repRests (cls : Char → Bool) (lo : Nat) (hi : Option Nat) (cs : List Char) :
    List (List Char) :=
  let m := match hi with
    | some h => min h (cs.takeWhile cls).length
    | none => (cs.takeWhile cls).length
  if lo ≤ m then (List.range (m + 1 - lo)).map (fun i => cs.drop (m - i)) else []

/-- `re.fullmatch` of `^(?:[a-zA-Z0-9]{1,8})|(?:[a-zA-Z0-9]{0,7}[*])$` (the
`system`/`job_name` rule).  The alternation spans the whole pattern, so
under `fullmatch` the whole string must consist of the first branch alone,
or of the second branch alone; the inner `^` and `$` are then redundant. -/
def sysJobRegexMatch (s : String) : Bool :=
  (repRests Char.isAlphanum 1 (some 8) s.data).any (fun rest => rest.isEmpty) ||
  (repRests Char.isAlphanum 0 (some 7) s.data).any (fun rest => rest == ['*'])

/-- `re.fullmatch` of `^(?:[a-zA-Z0-9]{1,})|(?:[a-zA-Z0-9]{0,}[*])$` (the
`message_id` rule: same shape, unbounded length). -/
def messageIdRegexMatch (s : String) : Bool :=
  (repRests Char.isAlphanum 1 none s.data).any (fun rest => rest.isEmpty) ||
  (repRests Char.isAlphanum 0 none s.data).any (fun rest => rest == ['*'])

/-- Python's `str.upper()` (the values here are ASCII, where it is the
character-wise ASCII upper-casing). -/
def pyUpper (s : String) : String := String.mk (s.data.map Char.toUpper)

/-- `validate_parameters_based_on_regex`: pass the value through, or raise
`ValidationError(str(value))`, modelled as `error` carrying the value. -/
def validate_parameters_based_on_regex (value : String) (regexMatch : String → Bool) :
    Except String String :=
  if regexMatch value then Except.ok value else Except.error value

/-- `system_type`: validate against the system rule, return the upper-cased
value. -/
def system_type (arg_val : String) : Except String String :=
  (validate_parameters_based_on_regex arg_val sysJobRegexMatch).map
    (fun _ => pyUpper arg_val)

/-- `message_id_type`: validate against the message-id rule, return the
upper-cased value. -/
def message_id_type (arg_val : String) : Except String String :=
  (validate_parameters_based_on_regex arg_val messageIdRegexMatch).map
    (fun _ => pyUpper arg_val)

/-- `job_name_type`: same rule as `system_type`. -/
def job_name_type (arg_val : String) : Except String String :=
  (validate_parameters_based_on_regex arg_val sysJobRegexMatch).map
    (fun _ => pyUpper arg_val)

/-- The `msg` attribute the `ValidationError` constructor formats for an
offending value. -/
def validationErrorMsg (value : String) : String :=
  "An error occurred during validate the input parameters: \"" ++ value ++ "\""

/-- Apply one arg_type validator to an option value when it is supplied. -/
def validateOpt (f : String → Except String String) :
    Option String → Except String (Option String)
  | some v => (f v).map some
  | none => Except.ok none

/-- Modelled from the spec: `BetterArgParser`, the collaborator `parse_params`
delegates to, is not part of this repository's files.  Per section 4.1 it
dispatches each supplied option value to its arg_type validator and a value
failing its rule signals a ValidationError before any parsing or filtering;
the validators themselves are the source's `system_type`, `message_id_type`
and `job_name_type` above, and the insertion order of `arg_defs` (system,
message_id, job_name) is taken as the dispatch order. -/
def parse_params (params : Params) : Except String Params :=
  match validateOpt system_type params.system with
  | Except.error e => Except.error e
  | Except.ok sys =>
    match validateOpt message_id_type params.message_id with
    | Except.error e => Except.error e
    | Except.ok mid =>
      match validateOpt job_name_type params.job_name with
      | Except.error e => Except.error e
      | Except.ok job => Except.ok { system := sys, message_id := mid, job_name := job }

/-- The collaborator's response to one operator command (`execute_command`
keeps `rc`, `stdout`, `stderr`, and exposes `stdout` again as `message`). -/
structure OperatorQueryResult where
  rc : Int
  stdout : String
  stderr : String

/-- The `message` attribute: the standard output of the command. -/
def OperatorQueryResult.message (r : OperatorQueryResult) : String := r.stdout

/-- What one invocation reports back: the action list and count on success,
or a failure message (`fail_json`). -/
inductive ModuleOutcome where
  | success (actions : List Dict) (count : Option Nat)
  | failed (msg : String)
deriving DecidableEq

/-- The failure message of the two command-failure arms. -/
def cmdFailedMsg : String :=
  "A non-zero return code was received while querying the operator."

/-- `run_module`'s control flow over one invocation, given the two
collaborator results.  The second component lists the side-effecting steps
reached, in order: the two operator commands, then parse+merge, then
filtering.  A `ValidationError` out of `parse_params` is caught by the
`except Error` arm before the first command executes (the failure message
is modelled as the error's `msg` attribute); an AttributeError out of
`handle_conditions` is caught by the generic `except Exception` arm. -/
def run_module (params : Params) (cmd_result_a cmd_result_b : OperatorQueryResult) :
    ModuleOutcome × List String :=
  match parse_params params with
  | Except.error v => (ModuleOutcome.failed (validationErrorMsg v), [])
  | Except.ok new_params =>
    if cmd_result_a.rc > 0 then
      (ModuleOutcome.failed cmdFailedMsg, ["d r,a,s"])
    else if cmd_result_b.rc > 0 then
      (ModuleOutcome.failed cmdFailedMsg, ["d r,a,s", "d r,a,jn"])
    else
      let merged_list := create_merge_list cmd_result_a.message cmd_result_b.message
      match find_required_request merged_list new_params with
      | none =>
        (ModuleOutcome.failed "An unexpected error occurred: AttributeError",
         ["d r,a,s", "d r,a,jn", "create_merge_list", "filter_requests"])
      | some requests =>
        (ModuleOutcome.success requests
           (if requests.isEmpty then none else some requests.length),
         ["d r,a,s", "d r,a,jn", "create_merge_list", "filter_requests"])

/-- One validation step for `firstInvalid`: a supplied value failing its
check is the offender, otherwise look further. -/
def checkOpt (check : String → Bool) (v : Option String) (next : Option String) :
    Option String :=
  match v with
  | some s => if check s then next else some s
  | none => next

/-- The first supplied option value violating its shape rule, in the
modelled dispatch order, if any. -/
def firstInvalid (params : Params) : Option String :=
  checkOpt sysJobRegexMatch params.system
    (checkOpt messageIdRegexMatch params.message_id
      (checkOpt sysJobRegexMatch params.job_name none))

/-- Claim-side shape, the spec's words: the whole string is 1 to 8
alphanumeric characters. -/
def specAlnum1to8 (s : String) : Bool :=
  s.data.all Char.isAlphanum && decide (1 ≤ s.data.length) && decide (s.data.length ≤ 8)

/-- Claim-side shape, the spec's words: 0 to 7 alphanumeric characters
followed by exactly one trailing wildcard marker. -/
def specAlnum0to7Star (s : String) : Bool :=
  match s.data.getLast? with
  | some c =>
    c == '*' && s.data.dropLast.all Char.isAlphanum && decide (s.data.dropLast.length ≤ 7)
  | none => false

/-- The merged record for sequence number 574, as `create_merge_list`
produces it from the two one-line outputs below: a WTOR with no owning
job, so no `job_name` key. -/
def wtorRecord : Dict :=
  [("number", "574"), ("type", "R"), ("system", "MV28"),
   ("message_text", "IXG312E OFFLOAD DELAYED FOR.."), ("message_id", "IXG312E")]

/-- A sample merged record that carries all three filterable fields. -/
def demoRecordA : Dict :=
  [("system", "MV27"), ("job_name", "IM5A"), ("message_id", "DFS123")]

/-- A second sample record, differing in job name and message id. -/
def demoRecordB : Dict :=
  [("system", "MV27"), ("job_name", "XXY"), ("message_id", "QRS9")]

/-- Sample criteria supplying all three predicates. -/
def demoParams : Params :=
  { system := some "MV27", message_id := some "DFS*", job_name := some "IM5*" }

/-! ### Dictionary lemmas -/

theorem dget_nil (k : String) : dget [] k = none := rfl

theorem dget_cons (p : String × String) (d : Dict) (k : String) :
    dget (p :: d) k = if p.1 = k then some p.2 else dget d k := by
  by_cases h : p.1 = k <;> simp [dget, List.find?_cons, h]

theorem dget_append_of_none (l1 l2 : Dict) (k : String) (h : dget l1 k = none) :
    dget (l1 ++ l2) k = dget l2 k := by
  induction l1 with
  | nil => rfl
  | cons p rest ih =>
    rw [dget_cons] at h
    by_cases hp : p.1 = k
    · rw [if_pos hp] at h
      exact absurd h (by simp)
    · rw [if_neg hp] at h
      rw [List.cons_append, dget_cons, if_neg hp, ih h]

theorem dget_append_of_some (l1 l2 : Dict) (k v : String) (h : dget l1 k = some v) :
    dget (l1 ++ l2) k = some v := by
  induction l1 with
  | nil => simp [dget_nil] at h
  | cons p rest ih =>
    rw [dget_cons] at h
    by_cases hp : p.1 = k
    · rw [List.cons_append, dget_cons, if_pos hp]
      rw [if_pos hp] at h
      exact h
    · rw [if_neg hp] at h
      rw [List.cons_append, dget_cons, if_neg hp, ih h]

theorem dget_eq_none_iff (d : Dict) (k : String) :
    dget d k = none ↔ ∀ p ∈ d, p.1 ≠ k := by
  simp [dget, List.find?_eq_none]

theorem dget_isSome_iff (d : Dict) (k : String) :
    (dget d k).isSome = true ↔ ∃ p ∈ d, p.1 = k := by
  induction d with
  | nil => simp [dget_nil]
  | cons p rest ih =>
    rw [dget_cons]
    by_cases h : p.1 = k
    · simp [h]
    · rw [if_neg h, ih]
      constructor
      · rintro ⟨q, hq, hqk⟩
        exact ⟨q, List.mem_cons_of_mem _ hq, hqk⟩
      · rintro ⟨q, hq, hqk⟩
        rcases List.mem_cons.mp hq with rfl | hq2
        · exact absurd hqk h
        · exact ⟨q, hq2, hqk⟩

theorem dget_map_replace (rest : Dict) (k v k' : String) (h : k' ≠ k) :
    dget (rest.map (fun q => if q.1 == k then (k, v) else q)) k' = dget rest k' := by
  induction rest with
  | nil => rfl
  | cons q tail ih =>
    by_cases hq : q.1 = k
    · have h1 : (if q.1 == k then (k, v) else q) = (k, v) := by simp [hq]
      simp only [List.map_cons, h1]
      rw [dget_cons, dget_cons]
      have hk : ¬ ((k, v).1 = k') := fun hh => h hh.symm
      have hq' : ¬ (q.1 = k') := by rw [hq]; exact fun hh => h hh.symm
      rw [if_neg hk, if_neg hq', ih]
    · have h1 : (if q.1 == k then (k, v) else q) = q := by simp [hq]
      simp only [List.map_cons, h1]
      rw [dget_cons, dget_cons, ih]

theorem dget_map_replace_self (rest : Dict) (k v : String)
    (h : rest.any (fun q => q.1 == k) = true) :
    dget (rest.map (fun q => if q.1 == k then (k, v) else q)) k = some v := by
  induction rest with
  | nil => simp at h
  | cons q tail ih =>
    by_cases hq : q.1 = k
    · have h1 : (if q.1 == k then (k, v) else q) = (k, v) := by simp [hq]
      simp only [List.map_cons, h1]
      rw [dget_cons]
      simp
    · have h1 : (if q.1 == k then (k, v) else q) = q := by simp [hq]
      simp only [List.any_cons, Bool.or_eq_true, beq_iff_eq] at h
      have h2 := h.resolve_left hq
      simp only [List.map_cons, h1]
      rw [dget_cons, if_neg hq, ih h2]

theorem dget_dset (d : Dict) (k v k' : String) :
    dget (dset d k v) k' = if k' = k then some v else dget d k' := by
  unfold dset
  by_cases hany : d.any (fun p => p.1 == k) = true
  · rw [if_pos hany]
    by_cases h : k' = k
    · rw [if_pos h, h, dget_map_replace_self d k v hany]
    · rw [if_neg h, dget_map_replace d k v k' h]
  · rw [if_neg hany]
    have hnone : dget d k = none := by
      rw [dget_eq_none_iff]
      intro p hp hk
      exact hany (List.any_eq_true.mpr ⟨p, hp, by simpa using hk⟩)
    by_cases h : k' = k
    · rw [if_pos h, h, dget_append_of_none d _ k hnone, dget_cons]
      simp
    · rw [if_neg h]
      cases hd : dget d k'
      · rw [dget_append_of_none d _ k' hd, dget_cons,
            if_neg (show ¬ (k, v).1 = k' from fun hh => h hh.symm), dget_nil]
      · rw [dget_append_of_some d _ k' _ hd]

theorem dget_dupdate_isSome (b : Dict) : ∀ (a : Dict) (k : String),
    (dget (dupdate a b) k).isSome = ((dget a k).isSome || (dget b k).isSome) := by
  induction b with
  | nil =>
    intro a k
    simp [dupdate, dget_nil]
  | cons p rest ih =>
    intro a k
    show (dget (dupdate (dset a p.1 p.2) rest) k).isSome = _
    rw [ih, dget_dset, dget_cons]
    by_cases h : k = p.1
    · rw [if_pos h, if_pos h.symm]
      simp
    · rw [if_neg h, if_neg (fun hh => h hh.symm)]

theorem dget_dupdate_of_none (b : Dict) : ∀ (a : Dict) (k : String),
    dget b k = none → dget (dupdate a b) k = dget a k := by
  induction b with
  | nil =>
    intro a k _
    rfl
  | cons p rest ih =>
    intro a k h
    rw [dget_cons] at h
    by_cases hp : p.1 = k
    · rw [if_pos hp] at h
      exact absurd h (by simp)
    · rw [if_neg hp] at h
      show dget (dupdate (dset a p.1 p.2) rest) k = dget a k
      rw [ih _ _ h, dget_dset, if_neg (fun hh => hp hh.symm)]

theorem dget_dupdate_of_some (b : Dict) : ∀ (a : Dict) (k v : String),
    (b.map Prod.fst).Nodup → dget b k = some v → dget (dupdate a b) k = some v := by
  induction b with
  | nil =>
    intro a k v _ h
    simp [dget_nil] at h
  | cons p rest ih =>
    intro a k v hnd h
    simp only [List.map_cons, List.nodup_cons] at hnd
    rw [dget_cons] at h
    by_cases hp : p.1 = k
    · rw [if_pos hp] at h
      have hrest : dget rest k = none := by
        rw [dget_eq_none_iff]
        intro q hq hqk
        have hmem : q.1 ∈ rest.map Prod.fst := List.mem_map_of_mem Prod.fst hq
        rw [hqk, ← hp] at hmem
        exact hnd.1 hmem
      show dget (dupdate (dset a p.1 p.2) rest) k = some v
      rw [dget_dupdate_of_none rest _ k hrest, dget_dset, if_pos hp.symm]
      exact h
    · rw [if_neg hp] at h
      exact ih _ _ _ hnd.2 h

/-! ### Merge lemmas -/

theorem merge_inner_foldl (list_b : List Dict) (a : Dict) : ∀ acc : List Dict,
    list_b.foldl (fun acc2 b =>
        if dget a "number" == dget b "number" then acc2 ++ [dupdate a b] else acc2) acc
    = acc ++ (list_b.filter (fun b => dget a "number" == dget b "number")).map
        (fun b => dupdate a b) := by
  induction list_b with
  | nil => intro acc; simp
  | cons b rest ih =>
    intro acc
    rw [List.foldl_cons, List.filter_cons]
    by_cases h : (dget a "number" == dget b "number") = true
    · rw [if_pos h, if_pos h, ih, List.map_cons, List.append_assoc]
      rfl
    · rw [if_neg h, if_neg h, ih]

theorem merge_list_eq_flatMap (list_a list_b : List Dict) :
    merge_list list_a list_b = list_a.flatMap (fun a =>
      (list_b.filter (fun b => dget a "number" == dget b "number")).map
        (fun b => dupdate a b)) := by
  unfold merge_list
  have step : ∀ (la : List Dict) (acc : List Dict),
      la.foldl (fun acc dict_a => list_b.foldl (fun acc2 dict_b =>
        if dget dict_a "number" == dget dict_b "number" then acc2 ++ [dupdate dict_a dict_b]
        else acc2) acc) acc
      = acc ++ la.flatMap (fun a =>
        (list_b.filter (fun b => dget a "number" == dget b "number")).map
          (fun b => dupdate a b)) := by
    intro la
    induction la with
    | nil => intro acc; simp
    | cons a rest ih =>
      intro acc
      rw [List.foldl_cons, merge_inner_foldl list_b a acc, ih, List.flatMap_cons,
        List.append_assoc]
  rw [step list_a []]
  simp

/-! ### Filter lemmas -/

theorem handle_conditions_some (ct v : String) : ∀ (l out : List Dict),
    handle_conditions l ct v = some out →
    out = l.filter (fun d => matchesCond d ct v == some true) := by
  intro l
  induction l with
  | nil =>
    intro out h
    simp only [handle_conditions] at h
    simp only [List.filter_nil]
    exact (Option.some.injEq _ _).mp h.symm
  | cons d rest ih =>
    intro out h
    simp only [handle_conditions] at h
    cases hm : matchesCond d ct v with
    | none => rw [hm] at h; cases h
    | some e =>
      rw [hm] at h
      cases hr : handle_conditions rest ct v with
      | none => rw [hr] at h; cases h
      | some newlist =>
        rw [hr] at h
        have hout : out = if e then d :: newlist else newlist :=
          ((Option.some.injEq _ _).mp h).symm
        rw [List.filter_cons, hm, ← ih newlist hr]
        cases e with
        | true => simpa using hout
        | false => simpa using hout

theorem handle_conditions_cons_some (d : Dict) (rest : List Dict) (ct v : String)
    (out : List Dict) (h : handle_conditions (d :: rest) ct v = some out) :
    ∃ e out2, matchesCond d ct v = some e ∧ handle_conditions rest ct v = some out2 := by
  simp only [handle_conditions] at h
  cases hm : matchesCond d ct v with
  | none => rw [hm] at h; cases h
  | some e =>
    rw [hm] at h
    cases hr : handle_conditions rest ct v with
    | none => rw [hr] at h; cases h
    | some out2 => exact ⟨e, out2, rfl, rfl⟩

theorem applyConds_some : ∀ (cs : List (String × String)) (l out : List Dict),
    applyConds cs l = some out → out = l.filter (keepAll cs) := by
  intro cs
  induction cs with
  | nil =>
    intro l out h
    have h0 : l = out := (Option.some.injEq _ _).mp h
    subst h0
    have hk : keepAll [] = fun _ : Dict => true := by
      funext d
      rfl
    rw [hk, List.filter_true]
  | cons c rest ih =>
    intro l out h
    simp only [applyConds] at h
    cases hh : handle_conditions l c.1 c.2 with
    | none => rw [hh] at h; cases h
    | some l2 =>
      rw [hh] at h
      have h2 := ih l2 out h
      rw [handle_conditions_some c.1 c.2 l l2 hh] at h2
      rw [h2, List.filter_filter]
      apply List.filter_congr
      intro d _
      simp only [keepAll, List.all_cons]
      exact Bool.and_comm _ _

theorem keepAll_perm (cs cs' : List (String × String)) (hp : cs.Perm cs') (d : Dict) :
    keepAll cs d = keepAll cs' d := by
  rw [Bool.eq_iff_iff]
  simp only [keepAll, List.all_eq_true]
  constructor
  · intro h c hc
    exact h c (hp.mem_iff.mpr hc)
  · intro h c hc
    exact h c (hp.mem_iff.mp hc)

theorem applyConds_append (xs : List (String × String)) :
    ∀ (ys : List (String × String)) (l : List Dict),
    applyConds (xs ++ ys) l = (applyConds xs l).bind (applyConds ys) := by
  induction xs with
  | nil => intro ys l; rfl
  | cons c rest ih =>
    intro ys l
    simp only [List.cons_append, applyConds]
    cases handle_conditions l c.1 c.2 with
    | none => rfl
    | some l2 => exact ih ys l2

theorem applyCond_eq (l : List Dict) (ct : String) (v : Option String) :
    applyCond l ct v = applyConds (optCond ct v) l := by
  cases v with
  | none => rfl
  | some s =>
    simp only [applyCond, optCond]
    by_cases h : (s == "") = true
    · rw [if_pos h, if_pos h]
      rfl
    · rw [if_neg h, if_neg h]
      show _ = applyConds [(ct, s)] l
      simp only [applyConds]
      cases handle_conditions l ct s <;> rfl

theorem filter_requests_eq_applyConds (l : List Dict) (p : Params) :
    filter_requests l p = applyConds (condList p) l := by
  show Option.bind (applyCond l "system" p.system)
      (fun l1 => Option.bind (applyCond l1 "job_name" p.job_name)
        (fun l2 => applyCond l2 "message_id" p.message_id))
      = applyConds (condList p) l
  simp only [condList, applyConds_append, Option.bind_assoc, ← applyCond_eq]

/-! ### Scanner lemmas -/

theorem scanIter_no_newline_false (tryFn : List Char → Option (α × List Char)) :
    ∀ (fuel : Nat) (cs : List Char), '\n' ∉ cs → scanIter tryFn fuel cs false = [] := by
  intro fuel
  induction fuel with
  | zero => intro cs _; rfl
  | succ n ih =>
    intro cs h
    cases cs with
    | nil => rfl
    | cons c rest =>
      show scanIter tryFn n rest (c == '\n') = []
      have hc : (c == '\n') = false := by
        simp only [beq_eq_false_iff_ne, ne_eq]
        intro hh
        exact h (hh ▸ List.mem_cons_self c rest)
      rw [hc]
      exact ih rest (fun hm => h (List.mem_cons_of_mem c hm))

theorem mem_scanIter (tryFn : List Char → Option (α × List Char)) :
    ∀ (fuel : Nat) (cs : List Char) (bol : Bool) (g : α),
      g ∈ scanIter tryFn fuel cs bol → ∃ cs' rest, tryFn cs' = some (g, rest) := by
  intro fuel
  induction fuel with
  | zero =>
    intro cs bol g h
    simp only [scanIter] at h
    cases h
  | succ n ih =>
    intro cs bol g h
    cases cs with
    | nil =>
      simp only [scanIter] at h
      cases h
    | cons c rest =>
      cases bol with
      | false =>
        exact ih rest (c == '\n') g h
      | true =>
        cases hf : tryFn (c :: rest) with
        | none =>
          simp only [scanIter, if_true, hf] at h
          exact ih rest (c == '\n') g h
        | some pr =>
          obtain ⟨g0, rest2⟩ := pr
          simp only [scanIter, if_true, hf] at h
          by_cases hlen : rest2.length < rest.length + 1
          · rw [if_pos hlen] at h
            rcases List.mem_cons.mp h with rfl | h2
            · exact ⟨c :: rest, rest2, hf⟩
            · exact ih _ _ g h2
          · rw [if_neg hlen] at h
            rcases List.mem_cons.mp h with rfl | h2
            · exact ⟨c :: rest, rest2, hf⟩
            · exact ih _ _ g h2

theorem dropAmpStar_suffix (cs : List Char) : dropAmpStar cs <:+ cs := by
  cases cs with
  | nil => exact List.suffix_refl []
  | cons c r =>
    simp only [dropAmpStar]
    by_cases h : (c == '&' || c == '*') = true
    · rw [if_pos h]
      exact List.suffix_cons c r
    · rw [if_neg h]

theorem contA_rest_suffix (cs : List Char) (m : List Char × List Char)
    (h : contA cs = some m) : m.2 <:+ cs := by
  simp only [contA] at h
  split at h
  · cases h
  · have heq := (Option.some.injEq _ _).mp h
    rw [← heq]
    exact (List.dropWhile_suffix _).trans ((List.dropWhile_suffix _).trans
      ((dropAmpStar_suffix _).trans (List.dropWhile_suffix _)))

theorem descentA_rest_suffix : ∀ (k : Nat) (cs : List Char)
    (j m r : List Char), descentA k cs = some (j, m, r) → r <:+ cs := by
  intro k
  induction k with
  | zero =>
    intro cs j m r h
    simp only [descentA] at h
    cases hc : contA cs with
    | none => rw [hc] at h; cases h
    | some mm =>
      obtain ⟨mm1, mm2⟩ := mm
      rw [hc] at h
      simp only [Option.map_some', Option.some.injEq, Prod.mk.injEq] at h
      obtain ⟨-, -, hr⟩ := h
      rw [← hr]
      exact contA_rest_suffix cs (mm1, mm2) hc
  | succ n ih =>
    intro cs j m r h
    simp only [descentA] at h
    cases hc : contA (cs.drop (n + 1)) with
    | none =>
      rw [hc] at h
      exact ih cs j m r h
    | some mm =>
      obtain ⟨mm1, mm2⟩ := mm
      rw [hc] at h
      simp only [Option.some.injEq, Prod.mk.injEq] at h
      obtain ⟨-, -, hr⟩ := h
      rw [← hr]
      exact (contA_rest_suffix _ (mm1, mm2) hc).trans (List.drop_suffix (n + 1) cs)

theorem tryA_rest_suffix (cs : List Char) (g : GroupsA) (rest : List Char)
    (h : tryA cs = some (g, rest)) : rest <:+ cs := by
  simp only [tryA] at h
  by_cases h0 : ((cs.dropWhile pySpace).takeWhile Char.isDigit).length < 2
  · rw [if_pos h0] at h
    cases h
  · rw [if_neg h0] at h
    cases hd : (cs.dropWhile pySpace).dropWhile Char.isDigit with
    | nil => simp [hd] at h
    | cons s1 cs3 =>
      simp only [hd] at h
      have hcs3 : cs3 <:+ cs := (List.suffix_cons s1 cs3).trans
        (hd ▸ ((List.dropWhile_suffix _).trans (List.dropWhile_suffix _)))
      by_cases h1 : (!pySpace s1) = true
      · rw [if_pos h1] at h
        cases h
      · rw [if_neg h1] at h
        cases h3 : cs3 with
        | nil => simp [h3] at h
        | cons t cs4 =>
          simp only [h3] at h
          rw [h3] at hcs3
          have hcs4 : cs4 <:+ cs := (List.suffix_cons t cs4).trans hcs3
          by_cases h2 : (!t.isUpper) = true
          · rw [if_pos h2] at h
            cases h
          · rw [if_neg h2] at h
            cases h4 : cs4 with
            | nil => simp [h4] at h
            | cons s2 cs5 =>
              simp only [h4] at h
              rw [h4] at hcs4
              have hcs5 : cs5 <:+ cs := (List.suffix_cons s2 cs5).trans hcs4
              by_cases h5 : (!pySpace s2) = true
              · rw [if_pos h5] at h
                cases h
              · rw [if_neg h5] at h
                by_cases h6 : (cs5.takeWhile isUpAlnum).length < 1
                · rw [if_pos h6] at h
                  cases h
                · rw [if_neg h6] at h
                  by_cases h7 : 8 < (cs5.takeWhile isUpAlnum).length
                  · rw [if_pos h7] at h
                    cases h
                  · rw [if_neg h7] at h
                    by_cases h8 : ((cs5.dropWhile isUpAlnum).takeWhile pySpace).isEmpty = true
                    · rw [if_pos h8] at h
                      cases h
                    · rw [if_neg h8] at h
                      cases hdA : descentA
                          (min 8 (((cs5.dropWhile isUpAlnum).dropWhile pySpace).takeWhile isUpAlnum).length)
                          ((cs5.dropWhile isUpAlnum).dropWhile pySpace) with
                      | none => simp [hdA] at h
                      | some tr =>
                        obtain ⟨j, m, r⟩ := tr
                        simp only [hdA, Option.some.injEq, Prod.mk.injEq] at h
                        obtain ⟨-, hr⟩ := h
                        rw [← hr]
                        exact (descentA_rest_suffix _ _ j m r hdA).trans
                          ((List.dropWhile_suffix _).trans
                            ((List.dropWhile_suffix _).trans hcs5))

theorem scanIter_cons_true (tryFn : List Char → Option (α × List Char)) (fuel : Nat)
    (c : Char) (rest : List Char) :
    scanIter tryFn (fuel + 1) (c :: rest) true =
      match tryFn (c :: rest) with
      | some (g, rest2) =>
        if rest2.length < rest.length + 1 then
          g :: scanIter tryFn fuel rest2
            ((((c :: rest).take (rest.length + 1 - rest2.length)).getLast?) == some '\n')
        else g :: scanIter tryFn fuel rest (c == '\n')
      | none => scanIter tryFn fuel rest (c == '\n') := rfl

theorem scanIter_cons_true_none (tryFn : List Char → Option (α × List Char)) (fuel : Nat)
    (c : Char) (rest : List Char) (hf : tryFn (c :: rest) = none) :
    scanIter tryFn (fuel + 1) (c :: rest) true = scanIter tryFn fuel rest (c == '\n') := by
  rw [scanIter_cons_true, hf]

theorem scanIter_cons_true_some (tryFn : List Char → Option (α × List Char)) (fuel : Nat)
    (c : Char) (rest : List Char) (g : α) (rest2 : List Char)
    (hf : tryFn (c :: rest) = some (g, rest2)) :
    scanIter tryFn (fuel + 1) (c :: rest) true =
      if rest2.length < rest.length + 1 then
        g :: scanIter tryFn fuel rest2
          ((((c :: rest).take (rest.length + 1 - rest2.length)).getLast?) == some '\n')
      else g :: scanIter tryFn fuel rest (c == '\n') := by
  rw [scanIter_cons_true, hf]

/-- On input without a newline, Parser A's scan reduces to the single match
attempt at offset 0: the only line start. -/
theorem parse_result_a_no_newline (s : String) (h : '\n' ∉ s.data) :
    parse_result_a s = ((tryA s.data).map (fun gr => buildA gr.1)).toList := by
  unfold parse_result_a finditerA
  cases hcs : s.data with
  | nil => rfl
  | cons c rest =>
    rw [hcs] at h
    have hc : (c == '\n') = false := by
      simp only [beq_eq_false_iff_ne, ne_eq]
      intro hh
      exact h (hh ▸ List.mem_cons_self c rest)
    have hrest : '\n' ∉ rest := fun hm => h (List.mem_cons_of_mem c hm)
    simp only [List.length_cons]
    cases hf : tryA (c :: rest) with
    | none =>
      rw [scanIter_cons_true_none tryA (rest.length + 1) c rest hf, hc,
        scanIter_no_newline_false tryA (rest.length + 1) rest hrest]
      rfl
    | some pr =>
      obtain ⟨g0, rest2⟩ := pr
      have hsub : rest2 <:+ c :: rest := tryA_rest_suffix _ _ _ hf
      have hrest2 : '\n' ∉ rest2 := fun hm => h (hsub.subset hm)
      rw [scanIter_cons_true_some tryA (rest.length + 1) c rest g0 rest2 hf]
      by_cases hlen : rest2.length < rest.length + 1
      · rw [if_pos hlen]
        have hls : ((((c :: rest).take (rest.length + 1 - rest2.length)).getLast?)
            == some '\n') = false := by
          cases hgl : ((c :: rest).take (rest.length + 1 - rest2.length)).getLast? with
          | none => rfl
          | some x =>
            obtain ⟨ys, hys⟩ := List.getLast?_eq_some_iff.mp hgl
            have hx : x ∈ (c :: rest).take (rest.length + 1 - rest2.length) := by
              rw [hys]
              exact List.mem_append.mpr (Or.inr (List.mem_singleton_self x))
            have hxcs : x ∈ c :: rest := List.mem_of_mem_take hx
            have hxne : x ≠ '\n' := fun he => h (he ▸ hxcs)
            simp [hxne]
        rw [hls, scanIter_no_newline_false tryA (rest.length + 1) rest2 hrest2]
        rfl
      · rw [if_neg hlen, hc, scanIter_no_newline_false tryA (rest.length + 1) rest hrest]
        rfl

/-! ### Parser B job-name lemmas -/

theorem contB_nil : contB [] = none := rfl

theorem descentB_some_job : ∀ (k : Nat) (cs : List Char) (jb : Option (List Char))
    (m r : List Char), descentB k cs = some (jb, m, r) →
    jb = none ∨ ∃ j, jb = some j ∧ j ≠ [] := by
  intro k
  induction k with
  | zero =>
    intro cs jb m r h
    simp only [descentB] at h
    cases hc : contB cs with
    | none => rw [hc] at h; cases h
    | some mm =>
      rw [hc] at h
      simp only [Option.map_some', Option.some.injEq, Prod.mk.injEq] at h
      exact Or.inl h.1.symm
  | succ n ih =>
    intro cs jb m r h
    simp only [descentB] at h
    cases hc : contB (cs.drop (n + 1)) with
    | none =>
      rw [hc] at h
      exact ih cs jb m r h
    | some mm =>
      rw [hc] at h
      simp only [Option.some.injEq, Prod.mk.injEq] at h
      refine Or.inr ⟨cs.take (n + 1), h.1.symm, ?_⟩
      cases cs with
      | nil =>
        rw [List.drop_nil, contB_nil] at hc
        cases hc
      | cons c0 cs0 =>
        simp [List.take_eq_nil_iff]

theorem tryB_job (cs : List Char) (g : GroupsB) (rest : List Char)
    (h : tryB cs = some (g, rest)) :
    g.job = none ∨ ∃ j, g.job = some j ∧ j ≠ [] := by
  simp only [tryB] at h
  by_cases h0 : ((cs.dropWhile pySpace).takeWhile Char.isDigit).length < 2
  · rw [if_pos h0] at h
    cases h
  · rw [if_neg h0] at h
    cases hd : (cs.dropWhile pySpace).dropWhile Char.isDigit with
    | nil => simp [hd] at h
    | cons s1 cs3 =>
      simp only [hd] at h
      by_cases h1 : (!pySpace s1) = true
      · rw [if_pos h1] at h
        cases h
      · rw [if_neg h1] at h
        cases h3 : cs3 with
        | nil => simp [h3] at h
        | cons t cs4 =>
          simp only [h3] at h
          by_cases h2 : (!t.isUpper) = true
          · rw [if_pos h2] at h
            cases h
          · rw [if_neg h2] at h
            by_cases h4 : (cs4.takeWhile pySpace).isEmpty = true
            · rw [if_pos h4] at h
              cases h
            · rw [if_neg h4] at h
              cases hdB : descentB (min 8 ((cs4.dropWhile pySpace).takeWhile isUpAlnum).length)
                  (cs4.dropWhile pySpace) with
              | none => simp [hdB] at h
              | some tr =>
                obtain ⟨jb, m, r⟩ := tr
                simp only [hdB, Option.some.injEq, Prod.mk.injEq] at h
                obtain ⟨hg, -⟩ := h
                have hjb := descentB_some_job _ _ jb m r hdB
                rw [← hg]
                simpa using hjb

/-! ### Built-record key lemmas -/

theorem dget_buildA_number (g : GroupsA) :
    dget (buildA g) "number" = some (String.mk g.num) := rfl

theorem dget_buildA_type (g : GroupsA) :
    dget (buildA g) "type" = some (String.mk [g.ty]) := rfl

theorem dget_buildA_system (g : GroupsA) :
    dget (buildA g) "system" = some (String.mk g.sys) := rfl

theorem dget_buildB_number (g : GroupsB) :
    dget (buildB g) "number" = some (String.mk g.num) := rfl

theorem dget_buildB_mid (g : GroupsB) :
    dget (buildB g) "message_id" = some (String.mk g.mid) := by
  cases hj : g.job with
  | none =>
    simp only [buildB, hj]
    rfl
  | some j =>
    simp only [buildB, hj]
    rfl

theorem dget_buildB_job_none (g : GroupsB) (h : g.job = none) :
    dget (buildB g) "job_name" = none := by
  simp only [buildB, h]
  rfl

theorem dget_buildB_job_some (g : GroupsB) (j : List Char) (h : g.job = some j) :
    dget (buildB g) "job_name" = some (String.mk j) := by
  simp only [buildB, h]
  show dget (("number", String.mk g.num) :: ("job_name", String.mk j)
    :: ("message_id", String.mk g.mid) :: []) "job_name" = some (String.mk j)
  rw [dget_cons, if_neg ((by decide : ¬ ("number" : String) = "job_name")),
    dget_cons, if_pos rfl]

theorem buildA_keys (g : GroupsA) : ∀ p ∈ buildA g,
    p.1 = "number" ∨ p.1 = "type" ∨ p.1 = "system" ∨ p.1 = "job_id"
      ∨ p.1 = "message_text" := by
  intro p hp
  simp only [buildA, List.mem_append] at hp
  rcases hp with (hp | hp) | hp
  · simp only [List.mem_cons, List.not_mem_nil, or_false] at hp
    rcases hp with rfl | rfl | rfl
    · exact Or.inl rfl
    · exact Or.inr (Or.inl rfl)
    · exact Or.inr (Or.inr (Or.inl rfl))
  · by_cases hj : g.job.isEmpty = true
    · rw [if_pos hj] at hp
      exact absurd hp (List.not_mem_nil p)
    · rw [if_neg hj] at hp
      simp only [List.mem_singleton] at hp
      subst hp
      exact Or.inr (Or.inr (Or.inr (Or.inl rfl)))
  · by_cases hm : g.msg.isEmpty = true
    · rw [if_pos hm] at hp
      exact absurd hp (List.not_mem_nil p)
    · rw [if_neg hm] at hp
      simp only [List.mem_singleton] at hp
      subst hp
      exact Or.inr (Or.inr (Or.inr (Or.inr rfl)))

theorem buildB_keys (g : GroupsB) : ∀ p ∈ buildB g,
    p.1 = "number" ∨ p.1 = "job_name" ∨ p.1 = "message_id" := by
  intro p hp
  simp only [buildB, List.mem_append] at hp
  rcases hp with (hp | hp) | hp
  · simp only [List.mem_singleton] at hp
    subst hp
    exact Or.inl rfl
  · cases hj : g.job with
    | none =>
      rw [hj] at hp
      exact absurd hp (List.not_mem_nil p)
    | some j =>
      rw [hj] at hp
      simp only [List.mem_singleton] at hp
      subst hp
      exact Or.inr (Or.inl rfl)
  · simp only [List.mem_singleton] at hp
    subst hp
    exact Or.inr (Or.inr rfl)

/-! ### Validator lemmas -/

theorem length_takeWhile_le (p : Char → Bool) (l : List Char) :
    (l.takeWhile p).length ≤ l.length :=
  (List.takeWhile_prefix p).length_le

theorem repRests_isEmpty_iff (cls : Char → Bool) (hi : Nat) (cs : List Char) :
    ((repRests cls 1 (some hi) cs).any (fun rest => rest.isEmpty)) = true ↔
      (cs ≠ [] ∧ cs.length ≤ hi ∧ cs.all cls = true) := by
  simp only [repRests]
  constructor
  · intro h
    by_cases hm : 1 ≤ min hi (cs.takeWhile cls).length
    · rw [if_pos hm, List.any_eq_true] at h
      obtain ⟨rest, hrest, hempty⟩ := h
      rw [List.mem_map] at hrest
      obtain ⟨i, hi_mem, rfl⟩ := hrest
      rw [List.isEmpty_iff, List.drop_eq_nil_iff] at hempty
      have hrun : (cs.takeWhile cls).length ≤ cs.length := length_takeWhile_le cls cs
      have h1 : cs.length ≤ min hi (cs.takeWhile cls).length :=
        le_trans hempty (Nat.sub_le _ _)
      have h2 : cs.length ≤ hi := le_trans h1 (Nat.min_le_left _ _)
      have h3 : cs.length ≤ (cs.takeWhile cls).length :=
        le_trans h1 (Nat.min_le_right _ _)
      have h5 : cs.takeWhile cls = cs :=
        (List.takeWhile_prefix cls).eq_of_length (le_antisymm hrun h3)
      have h6 : cs.all cls = true :=
        List.all_eq_true.mpr (List.takeWhile_eq_self_iff.mp h5)
      have h7 : cs ≠ [] := by
        intro hnil
        rw [hnil] at hm
        simp at hm
      exact ⟨h7, h2, h6⟩
    · rw [if_neg hm] at h
      simp at h
  · rintro ⟨h7, h2, h6⟩
    have h5 : cs.takeWhile cls = cs :=
      List.takeWhile_eq_self_iff.mpr (fun x hx => List.all_eq_true.mp h6 x hx)
    have hrunlen : (cs.takeWhile cls).length = cs.length := by rw [h5]
    have hlen1 : 1 ≤ cs.length := List.length_pos.mpr h7
    have hm : min hi (cs.takeWhile cls).length = cs.length := by
      rw [hrunlen]
      exact min_eq_right h2
    rw [if_pos (by rw [hm]; exact hlen1), List.any_eq_true]
    refine ⟨cs.drop (min hi (cs.takeWhile cls).length - 0), ?_, ?_⟩
    · rw [List.mem_map]
      refine ⟨0, ?_, rfl⟩
      rw [List.mem_range]
      omega
    · rw [hm, Nat.sub_zero, List.isEmpty_iff, List.drop_eq_nil_iff]

theorem repRests_star_iff (cls : Char → Bool) (hstar : cls '*' = false) (hi : Nat)
    (cs : List Char) :
    ((repRests cls 0 (some hi) cs).any (fun rest => rest == ['*'])) = true ↔
      (∃ pre : List Char, cs = pre ++ ['*'] ∧ pre.all cls = true ∧ pre.length ≤ hi) := by
  simp only [repRests]
  rw [if_pos (Nat.zero_le _), List.any_eq_true]
  constructor
  · rintro ⟨rest, hrest, hbeq⟩
    rw [List.mem_map] at hrest
    obtain ⟨i, hi_mem, rfl⟩ := hrest
    set k := min hi (cs.takeWhile cls).length - i with hk
    have hbeq' : cs.drop k = ['*'] := by
      simpa using hbeq
    have hkm : k ≤ min hi (cs.takeWhile cls).length := Nat.sub_le _ _
    have hkrun : k ≤ (cs.takeWhile cls).length := le_trans hkm (Nat.min_le_right _ _)
    have hkhi : k ≤ hi := le_trans hkm (Nat.min_le_left _ _)
    refine ⟨cs.take k, ?_, ?_, ?_⟩
    · conv_lhs => rw [← List.take_append_drop k cs]
      rw [hbeq']
    · obtain ⟨t, ht⟩ := List.takeWhile_prefix cls (l := cs)
      have htake : cs.take k = (cs.takeWhile cls).take k := by
        conv_lhs => rw [← ht]
        rw [List.take_append_of_le_length hkrun]
      rw [List.all_eq_true]
      intro x hx
      rw [htake] at hx
      exact List.mem_takeWhile_imp (List.mem_of_mem_take hx)
    · calc (cs.take k).length ≤ k := by
            rw [List.length_take]
            exact Nat.min_le_left _ _
      _ ≤ hi := hkhi
  · rintro ⟨pre, rfl, hall, hlen⟩
    have htw : ((pre ++ ['*']).takeWhile cls) = pre := by
      rw [List.takeWhile_append]
      have h1 : pre.takeWhile cls = pre :=
        List.takeWhile_eq_self_iff.mpr (fun x hx => List.all_eq_true.mp hall x hx)
      rw [h1, if_pos rfl]
      simp [List.takeWhile_cons, hstar]
    refine ⟨(pre ++ ['*']).drop (min hi ((pre ++ ['*']).takeWhile cls).length - 0), ?_, ?_⟩
    · rw [List.mem_map]
      refine ⟨0, ?_, rfl⟩
      rw [List.mem_range]
      omega
    · rw [htw, Nat.sub_zero, min_eq_right hlen, List.drop_left]
      rfl

theorem sysJobRegexMatch_eq_spec (s : String) :
    sysJobRegexMatch s = (specAlnum1to8 s || specAlnum0to7Star s) := by
  unfold sysJobRegexMatch
  rw [Bool.eq_iff_iff, Bool.or_eq_true, Bool.or_eq_true,
    repRests_isEmpty_iff, repRests_star_iff Char.isAlphanum (by decide) 7 s.data]
  constructor
  · rintro (⟨h7, h2, h6⟩ | ⟨pre, hpre, hall, hlen⟩)
    · left
      simp only [specAlnum1to8, Bool.and_eq_true, decide_eq_true_eq]
      refine ⟨⟨h6, ?_⟩, h2⟩
      exact Nat.one_le_iff_ne_zero.mpr (fun h0 => h7 (List.length_eq_zero.mp h0))
    · right
      simp only [specAlnum0to7Star, hpre, List.getLast?_concat, List.dropLast_concat,
        Bool.and_eq_true, beq_self_eq_true, decide_eq_true_eq, true_and]
      exact ⟨hall, hlen⟩
  · rintro (h | h)
    · left
      simp only [specAlnum1to8, Bool.and_eq_true, decide_eq_true_eq] at h
      obtain ⟨⟨h6, h1⟩, h2⟩ := h
      refine ⟨?_, h2, h6⟩
      intro hnil
      rw [hnil] at h1
      simp at h1
    · right
      simp only [specAlnum0to7Star] at h
      cases hgl : s.data.getLast? with
      | none =>
        rw [hgl] at h
        cases h
      | some c =>
        simp only [hgl, Bool.and_eq_true, beq_iff_eq, decide_eq_true_eq] at h
        obtain ⟨⟨hc, hall⟩, hlen⟩ := h
        have hmem : c ∈ s.data.getLast? := Option.mem_def.mpr hgl
        have heq := List.dropLast_append_getLast? c hmem
        refine ⟨s.data.dropLast, ?_, hall, hlen⟩
        rw [← hc, heq]

/-! ### Validation abort lemmas -/

theorem validateOpt_none (f : String → Except String String) :
    validateOpt f none = Except.ok none := rfl

theorem validateOpt_sys_ok (s : String) (hvs : sysJobRegexMatch s = true) :
    validateOpt system_type (some s) = Except.ok (some (pyUpper s)) := by
  simp [validateOpt, system_type, validate_parameters_based_on_regex, hvs, Except.map]

theorem validateOpt_sys_error (s : String) (hvs : ¬ sysJobRegexMatch s = true) :
    validateOpt system_type (some s) = Except.error s := by
  simp [validateOpt, system_type, validate_parameters_based_on_regex, hvs, Except.map]

theorem validateOpt_mid_ok (s : String) (hvs : messageIdRegexMatch s = true) :
    validateOpt message_id_type (some s) = Except.ok (some (pyUpper s)) := by
  simp [validateOpt, message_id_type, validate_parameters_based_on_regex, hvs, Except.map]

theorem validateOpt_mid_error (s : String) (hvs : ¬ messageIdRegexMatch s = true) :
    validateOpt message_id_type (some s) = Except.error s := by
  simp [validateOpt, message_id_type, validate_parameters_based_on_regex, hvs, Except.map]

theorem validateOpt_job_ok (s : String) (hvs : sysJobRegexMatch s = true) :
    validateOpt job_name_type (some s) = Except.ok (some (pyUpper s)) := by
  simp [validateOpt, job_name_type, validate_parameters_based_on_regex, hvs, Except.map]

theorem validateOpt_job_error (s : String) (hvs : ¬ sysJobRegexMatch s = true) :
    validateOpt job_name_type (some s) = Except.error s := by
  simp [validateOpt, job_name_type, validate_parameters_based_on_regex, hvs, Except.map]

theorem parse_params_error_of_firstInvalid (p : Params) (v : String)
    (h : firstInvalid p = some v) : parse_params p = Except.error v := by
  unfold firstInvalid checkOpt at h
  unfold parse_params
  cases hs : p.system with
  | some s =>
    simp only [hs] at h ⊢
    by_cases hvs : sysJobRegexMatch s = true
    · rw [if_pos hvs] at h
      simp only [validateOpt_sys_ok s hvs]
      cases hmid : p.message_id with
      | some w =>
        simp only [hmid] at h ⊢
        by_cases hvw : messageIdRegexMatch w = true
        · rw [if_pos hvw] at h
          simp only [validateOpt_mid_ok w hvw]
          cases hjob : p.job_name with
          | some u =>
            simp only [hjob] at h ⊢
            by_cases hvu : sysJobRegexMatch u = true
            · rw [if_pos hvu] at h
              cases h
            · rw [if_neg hvu] at h
              simp only [validateOpt_job_error u hvu]
              rw [(Option.some.injEq _ _).mp h]
          | none =>
            simp only [hjob] at h
            cases h
        · rw [if_neg hvw] at h
          simp only [validateOpt_mid_error w hvw]
          rw [(Option.some.injEq _ _).mp h]
      | none =>
        simp only [hmid] at h ⊢
        simp only [validateOpt_none]
        cases hjob : p.job_name with
        | some u =>
          simp only [hjob] at h ⊢
          by_cases hvu : sysJobRegexMatch u = true
          · rw [if_pos hvu] at h
            cases h
          · rw [if_neg hvu] at h
            simp only [validateOpt_job_error u hvu]
            rw [(Option.some.injEq _ _).mp h]
        | none =>
          simp only [hjob] at h
          cases h
    · rw [if_neg hvs] at h
      simp only [validateOpt_sys_error s hvs]
      rw [(Option.some.injEq _ _).mp h]
  | none =>
    simp only [hs] at h ⊢
    simp only [validateOpt_none]
    cases hmid : p.message_id with
    | some w =>
      simp only [hmid] at h ⊢
      by_cases hvw : messageIdRegexMatch w = true
      · rw [if_pos hvw] at h
        simp only [validateOpt_mid_ok w hvw]
        cases hjob : p.job_name with
        | some u =>
          simp only [hjob] at h ⊢
          by_cases hvu : sysJobRegexMatch u = true
          · rw [if_pos hvu] at h
            cases h
          · rw [if_neg hvu] at h
            simp only [validateOpt_job_error u hvu]
            rw [(Option.some.injEq _ _).mp h]
        | none =>
          simp only [hjob] at h
          cases h
      · rw [if_neg hvw] at h
        simp only [validateOpt_mid_error w hvw]
        rw [(Option.some.injEq _ _).mp h]
    | none =>
      simp only [hmid] at h ⊢
      simp only [validateOpt_none]
      cases hjob : p.job_name with
      | some u =>
        simp only [hjob] at h ⊢
        by_cases hvu : sysJobRegexMatch u = true
        · rw [if_pos hvu] at h
          cases h
        · rw [if_neg hvu] at h
          simp only [validateOpt_job_error u hvu]
          rw [(Option.some.injEq _ _).mp h]
      | none =>
        simp only [hjob] at h
        cases h

/-! ### Claim theorems -/

/-- C1 (code bug): a merged record lacking `job_name` is reachable (a WTOR
with no owning job), an exact `job_name` predicate excludes it as the spec
says, but a wildcard `job_name` predicate makes `handle_conditions` call
`.startswith` on `None` — an AttributeError (modelled by `none`) instead of
exclusion, so filtering does not complete normally. -/
theorem c1_wildcard_on_absent_field_raises :
    create_merge_list "574 R MV28              *574 IXG312E OFFLOAD DELAYED FOR.."
        "574 R  *574 IXG312E OFFLOAD DELAYED FOR.." = [wtorRecord]
    ∧ dget wtorRecord "job_name" = none
    ∧ handle_conditions [wtorRecord] "job_name" "IM5H" = some []
    ∧ handle_conditions [wtorRecord] "job_name" "IM5*" = none
    ∧ filter_requests [wtorRecord]
        { system := none, message_id := none, job_name := some "IM5*" } = none := by
  refine ⟨?_, ?_, ?_, ?_, ?_⟩ <;> decide

/-- C2: a string of 1-8 alphanumerics, or of 0-7 alphanumerics plus one
trailing `*`, passes `system`/`job_name` validation and is returned
upper-cased; every other string raises a ValidationError carrying it. -/
theorem c2_system_job_name_validation (s : String) :
    (specAlnum1to8 s = true →
       system_type s = Except.ok (pyUpper s) ∧ job_name_type s = Except.ok (pyUpper s))
    ∧ (specAlnum0to7Star s = true →
       system_type s = Except.ok (pyUpper s) ∧ job_name_type s = Except.ok (pyUpper s))
    ∧ (specAlnum1to8 s = false → specAlnum0to7Star s = false →
       system_type s = Except.error s ∧ job_name_type s = Except.error s) := by
  have hm := sysJobRegexMatch_eq_spec s
  refine ⟨?_, ?_, ?_⟩
  · intro h1
    have hv : sysJobRegexMatch s = true := by rw [hm, h1]; rfl
    constructor <;>
      simp [system_type, job_name_type, validate_parameters_based_on_regex, hv, Except.map]
  · intro h2
    have hv : sysJobRegexMatch s = true := by rw [hm, h2, Bool.or_true]
    constructor <;>
      simp [system_type, job_name_type, validate_parameters_based_on_regex, hv, Except.map]
  · intro h1 h2
    have hv : sysJobRegexMatch s = false := by rw [hm, h1, h2]; rfl
    constructor <;>
      simp [system_type, job_name_type, validate_parameters_based_on_regex, hv, Except.map]

theorem c2_witness :
    (specAlnum1to8 "im5" = true
      ∧ (system_type "im5" = Except.ok (pyUpper "im5")
        ∧ job_name_type "im5" = Except.ok (pyUpper "im5")))
    ∧ (specAlnum0to7Star "im5*" = true
      ∧ (system_type "im5*" = Except.ok (pyUpper "im5*")
        ∧ job_name_type "im5*" = Except.ok (pyUpper "im5*")))
    ∧ (specAlnum1to8 "a-b" = false ∧ specAlnum0to7Star "a-b" = false
      ∧ (system_type "a-b" = Except.error "a-b"
        ∧ job_name_type "a-b" = Except.error "a-b")) :=
  ⟨⟨by decide, (c2_system_job_name_validation "im5").1 (by decide)⟩,
   ⟨by decide, (c2_system_job_name_validation "im5*").2.1 (by decide)⟩,
   ⟨by decide, by decide, (c2_system_job_name_validation "a-b").2.2 (by decide) (by decide)⟩⟩

/-- C3: the merge is the inner join on `number`, emitting one updated copy
per matching pair, A-major with ties in B's order (the `flatMap`/`filter`
normal form), and the `dict.update` semantics give B's entries precedence:
keys absent from B fall back to A, keys present in B (unique in any dict)
take B's value. -/
theorem c3_merge_inner_join :
    (∀ list_a list_b : List Dict,
       merge_list list_a list_b = list_a.flatMap (fun a =>
         (list_b.filter (fun b => dget a "number" == dget b "number")).map
           (fun b => dupdate a b)))
    ∧ (∀ (a b : Dict) (k : String),
        (dget b k = none → dget (dupdate a b) k = dget a k)
        ∧ ((b.map Prod.fst).Nodup → ∀ v : String,
            dget b k = some v → dget (dupdate a b) k = some v)) := by
  constructor
  · exact merge_list_eq_flatMap
  · intro a b k
    exact ⟨dget_dupdate_of_none b a k,
      fun hnd v hv => dget_dupdate_of_some b a k v hnd hv⟩

theorem c3_witness :
    merge_list [[("number", "742"), ("system", "MV28")]]
        [[("number", "742"), ("message_id", "ARC0055A")]]
      = [[("number", "742"), ("system", "MV28")]].flatMap (fun a =>
          (([[("number", "742"), ("message_id", "ARC0055A")]].filter
            (fun b => dget a "number" == dget b "number")).map (fun b => dupdate a b)))
    ∧ dget (dupdate [("number", "742"), ("system", "MV28")]
        [("number", "742"), ("message_id", "ARC0055A")]) "system" = some "MV28"
    ∧ dget (dupdate [("number", "742"), ("system", "MV28")]
        [("number", "742"), ("message_id", "ARC0055A")]) "message_id" = some "ARC0055A" :=
  ⟨c3_merge_inner_join.1 [[("number", "742"), ("system", "MV28")]]
      [[("number", "742"), ("message_id", "ARC0055A")]],
   (c3_merge_inner_join.2 [("number", "742"), ("system", "MV28")]
      [("number", "742"), ("message_id", "ARC0055A")] "system").1 (by decide),
   (c3_merge_inner_join.2 [("number", "742"), ("system", "MV28")]
      [("number", "742"), ("message_id", "ARC0055A")] "message_id").2 (by decide)
      "ARC0055A" (by decide)⟩

/-- C4: Parser A on the two documented lines: the full line with a job id
yields exactly the documented record, and the line without a job token
yields a record with no `job_id` key and `message_text` starting with
`IXG312E`. -/
theorem c4_parser_a_examples :
    parse_result_a "810 R MV2D     JOB58389 &810 ARC0055A REPLY 'GO' OR 'CANCEL'" =
      [[("number", "810"), ("type", "R"), ("system", "MV2D"), ("job_id", "JOB58389"),
        ("message_text", "ARC0055A REPLY 'GO' OR 'CANCEL'")]]
    ∧ parse_result_a "574 R MV28              *574 IXG312E OFFLOAD DELAYED FOR.." =
      [[("number", "574"), ("type", "R"), ("system", "MV28"),
        ("message_text", "IXG312E OFFLOAD DELAYED FOR..")]]
    ∧ dget [("number", "574"), ("type", "R"), ("system", "MV28"),
        ("message_text", "IXG312E OFFLOAD DELAYED FOR..")] "job_id" = none
    ∧ ∃ t : String, dget [("number", "574"), ("type", "R"), ("system", "MV28"),
        ("message_text", "IXG312E OFFLOAD DELAYED FOR..")] "message_text" = some t
        ∧ "IXG312E".data.isPrefixOf t.data = true := by
  refine ⟨by decide, by decide, by decide,
    "IXG312E OFFLOAD DELAYED FOR..", by decide, by decide⟩

/-- C5 (counterexample): with `re.MULTILINE`, the whitespace separators of
Parser A's pattern also match newlines, so one match can span two lines
neither of which matches the shape on its own: the claim's
"every line not matching this shape yields no record" fails. -/
theorem c5_counterexample_multiline_match :
    parse_result_a "99 R SYS1" = []
    ∧ parse_result_a "77 *99 REST" = []
    ∧ parse_result_a "99 R SYS1\n77 *99 REST" =
      [[("number", "99"), ("type", "R"), ("system", "SYS1"), ("job_id", "77"),
        ("message_text", "REST")]] := by
  refine ⟨?_, ?_, ?_⟩ <;> decide

/-- C5 (amended): Parser A's matches begin only at line-start positions — a
scan that is mid-line and sees no further newline emits nothing — and on
single-line input the parser emits a record exactly for a match of the
shape at the line's start (at most one); a match may however span several
lines of a multi-line input, as the counterexample shows. -/
theorem c5_line_anchored_scan :
    (∀ (fuel : Nat) (cs : List Char), '\n' ∉ cs → scanIter tryA fuel cs false = [])
    ∧ (∀ s : String, '\n' ∉ s.data →
        parse_result_a s = ((tryA s.data).map (fun gr => buildA gr.1)).toList) :=
  ⟨fun fuel cs h => scanIter_no_newline_false tryA fuel cs h,
   parse_result_a_no_newline⟩

theorem c5_witness :
    ('\n' ∉ "77 *99 REST".data ∧ scanIter tryA 12 "77 *99 REST".data false = [])
    ∧ ('\n' ∉ "99 R SYS1".data ∧ parse_result_a "99 R SYS1"
        = ((tryA "99 R SYS1".data).map (fun gr => buildA gr.1)).toList) :=
  ⟨⟨by decide, c5_line_anchored_scan.1 12 "77 *99 REST".data (by decide)⟩,
   ⟨by decide, c5_line_anchored_scan.2 "99 R SYS1" (by decide)⟩⟩

/-- C6: Parser B on the documented line yields exactly the documented
record; a match whose optional job-name group captured nothing yields a
record with no `job_name` key at all, and no emitted record ever carries an
empty-string `job_name`. -/
theorem c6_parser_b :
    parse_result_b "742 R FVFNT29H &742 ARC0055A REPLY 'GO' OR 'CANCEL'" =
      [[("number", "742"), ("job_name", "FVFNT29H"), ("message_id", "ARC0055A")]]
    ∧ (∀ g : GroupsB, g.job = none → dget (buildB g) "job_name" = none)
    ∧ (∀ (s : String) (d : Dict), d ∈ parse_result_b s →
        dget d "job_name" ≠ some "") := by
  refine ⟨by decide, fun g h => dget_buildB_job_none g h, ?_⟩
  intro s d hd
  unfold parse_result_b at hd
  rw [List.mem_map] at hd
  obtain ⟨g, hg, rfl⟩ := hd
  unfold finditerB at hg
  obtain ⟨cs', rest, hf⟩ := mem_scanIter tryB _ _ _ g hg
  rcases tryB_job cs' g rest hf with hnone | ⟨j, hsome, hne⟩
  · rw [dget_buildB_job_none g hnone]
    exact fun h => by cases h
  · rw [dget_buildB_job_some g j hsome]
    intro h
    have h2 := congrArg String.data ((Option.some.injEq _ _).mp h)
    exact hne (by simpa using h2)

theorem c6_witness :
    (([("number", "742"), ("job_name", "FVFNT29H"), ("message_id", "ARC0055A")] : Dict)
      ∈ parse_result_b "742 R FVFNT29H &742 ARC0055A REPLY 'GO' OR 'CANCEL'"
      ∧ dget [("number", "742"), ("job_name", "FVFNT29H"), ("message_id", "ARC0055A")]
          "job_name" ≠ some "")
    ∧ dget (buildB { num := ['9', '9'], job := none, mid := ['A'] }) "job_name" = none :=
  ⟨⟨by decide, c6_parser_b.2.2 "742 R FVFNT29H &742 ARC0055A REPLY 'GO' OR 'CANCEL'"
      [("number", "742"), ("job_name", "FVFNT29H"), ("message_id", "ARC0055A")] (by decide)⟩,
   c6_parser_b.2.1 { num := ['9', '9'], job := none, mid := ['A'] } rfl⟩

/-- C7 (counterexample): with both a `system` and a wildcard `job_name`
predicate supplied, a merged set containing a record that lacks `job_name`
makes `filter_requests` raise (AttributeError, modelled by `none`) instead
of returning the records satisfying all predicates. -/
theorem c7_counterexample_wildcard_crash :
    filter_requests [[("number", "574"), ("system", "MV28"), ("message_id", "IXG312E")]]
      { system := some "MV28", message_id := none, job_name := some "IM5*" } = none := by
  decide

/-- C7 (amended): whenever filtering completes normally, the result is
exactly the records satisfying every supplied predicate (logical AND); no
supplied predicates returns the list unchanged; and every application order
of the supplied predicates that completes yields the same final set. -/
theorem c7_filter_and_semantics :
    (∀ l : List Dict,
       filter_requests l { system := none, message_id := none, job_name := none } = some l)
    ∧ (∀ (l out : List Dict) (p : Params), filter_requests l p = some out →
        out = l.filter (keepAll (condList p)))
    ∧ (∀ (l out out' : List Dict) (p : Params) (conds : List (String × String)),
        conds.Perm (condList p) → filter_requests l p = some out →
        applyConds conds l = some out' → out' = out) := by
  refine ⟨fun l => rfl, ?_, ?_⟩
  · intro l out p h
    rw [filter_requests_eq_applyConds] at h
    exact applyConds_some _ l out h
  · intro l out out' p conds hp h h'
    rw [filter_requests_eq_applyConds] at h
    have h1 := applyConds_some _ l out h
    have h2 := applyConds_some _ l out' h'
    rw [h1, h2]
    exact List.filter_congr (fun d _ => keepAll_perm conds (condList p) hp d)

theorem c7_witness :
    filter_requests [demoRecordA, demoRecordB] demoParams = some [demoRecordA]
    ∧ ([demoRecordA] : List Dict)
        = [demoRecordA, demoRecordB].filter (keepAll (condList demoParams))
    ∧ applyConds [("message_id", "DFS*"), ("system", "MV27"), ("job_name", "IM5*")]
        [demoRecordA, demoRecordB] = some [demoRecordA]
    ∧ ([demoRecordA] : List Dict) = [demoRecordA] :=
  ⟨by decide,
   c7_filter_and_semantics.2.1 [demoRecordA, demoRecordB] [demoRecordA] demoParams
     (by decide),
   by decide,
   c7_filter_and_semantics.2.2 [demoRecordA, demoRecordB] [demoRecordA] [demoRecordA]
     demoParams [("message_id", "DFS*"), ("system", "MV27"), ("job_name", "IM5*")]
     (by decide) (by decide) (by decide)⟩

/-- C8: when a supplied filter value violates its shape rule, the
invocation fails with the ValidationError message quoting that value,
before any operator command, parsing, merging or filtering is reached (the
trace of reached steps is empty), and no result set is produced.  The
BetterArgParser dispatch is modelled from the spec; the validators are the
source's. -/
theorem c8_validation_aborts_before_execution (p : Params)
    (ra rb : OperatorQueryResult) (v : String) (h : firstInvalid p = some v) :
    run_module p ra rb = (ModuleOutcome.failed (validationErrorMsg v), []) := by
  unfold run_module
  rw [parse_params_error_of_firstInvalid p v h]

theorem c8_witness :
    firstInvalid { system := some "a-b", message_id := none, job_name := some "IM5*" }
      = some "a-b"
    ∧ run_module { system := some "a-b", message_id := none, job_name := some "IM5*" }
        { rc := 0, stdout := "", stderr := "" } { rc := 0, stdout := "", stderr := "" }
      = (ModuleOutcome.failed (validationErrorMsg "a-b"), []) :=
  ⟨by decide,
   c8_validation_aborts_before_execution
     { system := some "a-b", message_id := none, job_name := some "IM5*" }
     { rc := 0, stdout := "", stderr := "" } { rc := 0, stdout := "", stderr := "" }
     "a-b" (by decide)⟩

/-- C9: every Parser A record carries `number`, `type` and `system`; every
Parser B record carries `number` and `message_id`; hence every merged
record carries all four, and its keys stay within the seven documented
field names, so only `job_id`, `message_text` and `job_name` can be
absent. -/
theorem c9_record_keys :
    (∀ (s : String) (d : Dict), d ∈ parse_result_a s →
       (dget d "number").isSome = true ∧ (dget d "type").isSome = true
         ∧ (dget d "system").isSome = true)
    ∧ (∀ (s : String) (d : Dict), d ∈ parse_result_b s →
       (dget d "number").isSome = true ∧ (dget d "message_id").isSome = true)
    ∧ (∀ (sa sb : String) (d : Dict),
        d ∈ merge_list (parse_result_a sa) (parse_result_b sb) →
        ((dget d "number").isSome = true ∧ (dget d "type").isSome = true
          ∧ (dget d "system").isSome = true ∧ (dget d "message_id").isSome = true)
        ∧ ∀ k : String, (dget d k).isSome = true →
            k = "number" ∨ k = "type" ∨ k = "system" ∨ k = "job_id"
              ∨ k = "message_text" ∨ k = "job_name" ∨ k = "message_id") := by
  have hA : ∀ (s : String) (d : Dict), d ∈ parse_result_a s → ∃ g, d = buildA g := by
    intro s d hd
    unfold parse_result_a at hd
    rw [List.mem_map] at hd
    obtain ⟨g, -, rfl⟩ := hd
    exact ⟨g, rfl⟩
  have hB : ∀ (s : String) (d : Dict), d ∈ parse_result_b s → ∃ g, d = buildB g := by
    intro s d hd
    unfold parse_result_b at hd
    rw [List.mem_map] at hd
    obtain ⟨g, -, rfl⟩ := hd
    exact ⟨g, rfl⟩
  refine ⟨?_, ?_, ?_⟩
  · intro s d hd
    obtain ⟨g, rfl⟩ := hA s d hd
    rw [dget_buildA_number, dget_buildA_type, dget_buildA_system]
    exact ⟨rfl, rfl, rfl⟩
  · intro s d hd
    obtain ⟨g, rfl⟩ := hB s d hd
    rw [dget_buildB_number, dget_buildB_mid]
    exact ⟨rfl, rfl⟩
  · intro sa sb d hd
    rw [merge_list_eq_flatMap, List.mem_flatMap] at hd
    obtain ⟨a, ha, hd2⟩ := hd
    rw [List.mem_map] at hd2
    obtain ⟨b, hbf, rfl⟩ := hd2
    have hb : b ∈ parse_result_b sb := (List.mem_filter.mp hbf).1
    obtain ⟨ga, rfl⟩ := hA sa a ha
    obtain ⟨gb, rfl⟩ := hB sb b hb
    constructor
    · refine ⟨?_, ?_, ?_, ?_⟩ <;> rw [dget_dupdate_isSome]
      · rw [dget_buildA_number]
        rfl
      · rw [dget_buildA_type]
        rfl
      · rw [dget_buildA_system]
        rfl
      · rw [dget_buildB_mid]
        simp
    · intro k hk
      rw [dget_dupdate_isSome, Bool.or_eq_true] at hk
      rcases hk with hk | hk
      · obtain ⟨p, hp, hpk⟩ := (dget_isSome_iff _ k).mp hk
        rcases buildA_keys ga p hp with h | h | h | h | h <;> rw [← hpk, h]
        · exact Or.inl rfl
        · exact Or.inr (Or.inl rfl)
        · exact Or.inr (Or.inr (Or.inl rfl))
        · exact Or.inr (Or.inr (Or.inr (Or.inl rfl)))
        · exact Or.inr (Or.inr (Or.inr (Or.inr (Or.inl rfl))))
      · obtain ⟨p, hp, hpk⟩ := (dget_isSome_iff _ k).mp hk
        rcases buildB_keys gb p hp with h | h | h <;> rw [← hpk, h]
        · exact Or.inl rfl
        · exact Or.inr (Or.inr (Or.inr (Or.inr (Or.inr (Or.inl rfl)))))
        · exact Or.inr (Or.inr (Or.inr (Or.inr (Or.inr (Or.inr rfl)))))

theorem c9_witness :
    (([("number", "574"), ("type", "R"), ("system", "MV28"),
        ("message_text", "IXG312E OFFLOAD DELAYED FOR..")] : Dict)
      ∈ parse_result_a "574 R MV28              *574 IXG312E OFFLOAD DELAYED FOR.."
      ∧ (dget [("number", "574"), ("type", "R"), ("system", "MV28"),
          ("message_text", "IXG312E OFFLOAD DELAYED FOR..")] "number").isSome = true)
    ∧ (wtorRecord
        ∈ merge_list
          (parse_result_a "574 R MV28              *574 IXG312E OFFLOAD DELAYED FOR..")
          (parse_result_b "574 R  *574 IXG312E OFFLOAD DELAYED FOR..")
      ∧ (dget wtorRecord "message_id").isSome = true) :=
  ⟨⟨by decide,
    ((c9_record_keys.1 "574 R MV28              *574 IXG312E OFFLOAD DELAYED FOR.."
      [("number", "574"), ("type", "R"), ("system", "MV28"),
        ("message_text", "IXG312E OFFLOAD DELAYED FOR..")] (by decide)).1)⟩,
   ⟨by decide,
    ((c9_record_keys.2.2 "574 R MV28              *574 IXG312E OFFLOAD DELAYED FOR.."
      "574 R  *574 IXG312E OFFLOAD DELAYED FOR.." wtorRecord (by decide)).1.2.2.2)⟩⟩

/-- C10: a completing `handle_conditions` pass returns a subsequence of its
input, and a completing `filter_requests` run returns a subsequence of the
merged list — relative record order is preserved. -/
theorem c10_filter_is_subsequence :
    (∀ (l : List Dict) (ct v : String) (out : List Dict),
       handle_conditions l ct v = some out → out.Sublist l)
    ∧ (∀ (l : List Dict) (p : Params) (out : List Dict),
       filter_requests l p = some out → out.Sublist l) := by
  constructor
  · intro l ct v out h
    rw [handle_conditions_some ct v l out h]
    exact List.filter_sublist l
  · intro l p out h
    rw [filter_requests_eq_applyConds] at h
    rw [applyConds_some _ l out h]
    exact List.filter_sublist l

theorem c10_witness :
    (handle_conditions [demoRecordA] "job_name" "IM5*" = some [demoRecordA]
      ∧ List.Sublist [demoRecordA] [demoRecordA])
    ∧ (filter_requests [demoRecordA, demoRecordB] demoParams = some [demoRecordA]
      ∧ List.Sublist [demoRecordA] [demoRecordA, demoRecordB]) :=
  ⟨⟨by decide, c10_filter_is_subsequence.1 [demoRecordA] "job_name" "IM5*"
      [demoRecordA] (by decide)⟩,
   ⟨by decide, c10_filter_is_subsequence.2 [demoRecordA, demoRecordB] demoParams
      [demoRecordA] (by decide)⟩⟩

end ZosOperator
